import Mathlib

/-!
Verification of the surveilens workflow engine.

This file gives a shallow embedding of the workflow engine of the
surveilens repository (trigger matching, the BFS execution planner,
the level-synchronous executor, the action dispatcher, the cooldown
gate and template substitution) and proves or refutes the frozen
claims about it.

Modelling conventions:
* JavaScript strings are Lean `String`s; substring tests are executable
  functions on the underlying character lists.
* A throwing JavaScript computation is an `Except Unit` value (or a
  `Bool` flag for external callbacks whose error value is irrelevant).
* The LLM oracle used by custom triggers is an explicit parameter of
  type `Except Unit (Option String)` (the request can fail, and the
  returned message content can be absent).
* `Date.now()` values are integers (milliseconds); JS number
  subtraction on them is `Int` subtraction.
* The locale rendering of an event timestamp and the fixed-point
  rendering of the confidence are carried as precomputed fields of the
  event record (`timestampLocale`, `confidencePct`), since locale and
  floating-point formatting are outside the embedding; no claim hinges
  on their internals.
-/

set_option maxHeartbeats 1000000

namespace Surveilens

/-- Block configuration carried in `node.data.config`.  Absent string
fields of the JS object are `none`. -/
structure Config where
  authenticated : Bool := false
  configured : Bool := false
  «to» : Option String := none
  subject : Option String := none
  body : Option String := none
  message : Option String := none
  channel : Option String := none
  condition : Option String := none
  deriving DecidableEq

/-- Payload of a reactflow node (`node.data`). -/
structure NodeData where
  nodeType : String
  blockType : String
  label : String := ""
  config : Config := {}
  deriving DecidableEq

/-- A reactflow node, as consumed by the workflow engine. -/
structure Node where
  id : String
  data : NodeData
  deriving DecidableEq

/-- A reactflow edge. -/
structure Edge where
  source : String
  target : String
  deriving DecidableEq

/-- A detection event.  `timestampLocale` models the string
`new Date(e.timestamp).toLocaleString()` and `confidencePct` models the
integer `(e.confidence * 100).toFixed(0)`. -/
structure DetectionEvent where
  type : String
  description : String := ""
  timestampLocale : String := ""
  confidencePct : Nat := 0
  deriving DecidableEq

/-- Helper for `containsSub`: does the second character list occur as a
contiguous run inside the first one. -/
def subAux : List Char → List Char → Bool
  | [], p => p == []
  | c :: cs, p => p.isPrefixOf (c :: cs) || subAux cs p

/-- JS `hay.includes(pat)` for strings. -/
def containsSub (hay pat : String) : Bool :=
  subAux hay.data pat.data

/-- JS `s.toUpperCase()`, character by character (the event and
trigger type strings are ASCII). -/
def upperStr (s : String) : String :=
  String.mk (s.data.map Char.toUpper)

/-- Characters JS `trim` strips. -/
def isJsSpace (c : Char) : Bool :=
  c == ' ' || c == '\n' || c == '\t' || c == '\r'

/-- JS `s.trim()`: strip whitespace from both ends. -/
def trimStr (s : String) : String :=
  String.mk ((((s.data.dropWhile isJsSpace).reverse).dropWhile isJsSpace).reverse)

/-- The per-event alias rule of `checkTrigger` (the body of the
`events.some` lambda): direct match after upper-casing, then the
keyword-containment aliases, with `object_detected` accepting any
event. -/
def matchesBuiltin (triggerType : String) (e : DetectionEvent) : Bool :=
  let eventType := upperStr e.type
  if eventType == upperStr triggerType then true
  else if (triggerType == "person_detected" || triggerType == "person_entered")
      && (containsSub eventType "PERSON"
          && (containsSub eventType "ENTERED" || containsSub eventType "DETECTED")) then true
  else if triggerType == "fight_detected"
      && (containsSub eventType "FIGHT" || containsSub eventType "VIOLENCE") then true
  else if triggerType == "robbery_detected"
      && (containsSub eventType "ROBBERY" || containsSub eventType "BREAK") then true
  else if triggerType == "suspicious_activity"
      && (containsSub eventType "SUSPICIOUS" || containsSub eventType "LOITERING"
          || containsSub eventType "SHOPLIFTING") then true
  else triggerType == "object_detected"

/-- `checkCustomTrigger`: LLM-backed matching for `custom_event`
triggers.  The oracle parameter stands for the
`openai.chat.completions.create` call: `Except.error` is a thrown
request, `Except.ok none` a response with absent message content. -/
def checkCustomTrigger (condition : String) (events : List DetectionEvent)
    (oracle : Except Unit (Option String)) : Bool :=
  if condition == "" then false
  else if events.length == 0 then false
  else
    match oracle with
    | Except.error _ => false
    | Except.ok content => (content.map (fun s => upperStr (trimStr s))) == some "YES"

/-- `checkTrigger`: dispatches `custom_event` triggers to the LLM
matcher and matches every other trigger subtype against the event
window with `events.some`. -/
def checkTrigger (oracle : Except Unit (Option String)) (triggerNode : Node)
    (events : List DetectionEvent) : Bool :=
  let triggerType := triggerNode.data.blockType
  if triggerType == "custom_event" then
    checkCustomTrigger (triggerNode.data.config.condition.getD "") events oracle
  else
    events.any (fun e => matchesBuiltin triggerType e)

/-- Cooldown state: the `triggerCooldownRef` map from trigger node id to
last trigger timestamp. -/
abbrev CdMap : Type := List (String × Int)

/-- Map lookup (`map.get(id)`). -/
def mapGet (m : CdMap) (k : String) : Option Int :=
  (List.find? (fun p => p.1 == k) m).map (fun p => p.2)

/-- Map update (`map.set(id, v)`). -/
def mapSet (m : CdMap) (k : String) (v : Int) : CdMap :=
  (k, v) :: List.filter (fun p => !(p.1 == k)) m

/-- The fixed 60 second cooldown window, in milliseconds. -/
def TRIGGER_COOLDOWN_MS : Int := 60000

/-- The value the gate reads for a trigger id:
`triggerCooldownRef.current.get(id) || 0`. -/
def lastOf (m : CdMap) (k : String) : Int :=
  (mapGet m k).getD 0

/-- The cooldown gate of `checkWorkflowTriggers`: suppress when
`now - lastTriggerTime < TRIGGER_COOLDOWN_MS`, otherwise record `now`
and allow. -/
def checkCooldown (m : CdMap) (id : String) (now : Int) : Bool × CdMap :=
  if now - lastOf m id < TRIGGER_COOLDOWN_MS then (false, m)
  else (true, mapSet m id now)

/-- Run a sequence of gate checks for one trigger id, returning the
allow/suppress outcomes in order. -/
def runCooldown (id : String) : List Int → CdMap → List Bool
  | [], _ => []
  | t :: ts, m =>
    let r := checkCooldown m id t
    r.1 :: runCooldown id ts r.2

/-- The attempt times that the gate allows, in order. -/
def allowedTimes (id : String) : List Int → CdMap → List Int
  | [], _ => []
  | t :: ts, m =>
    let r := checkCooldown m id t
    if r.1 then t :: allowedTimes id ts r.2 else allowedTimes id ts r.2

/-- One global find-and-replace pass
(`s.replace(/pat/g, repl)`): leftmost occurrences, non-overlapping, the
replacement text is not rescanned within the pass.  Fuel is the length
of the scanned text, which bounds the number of steps for a non-empty
pattern. -/
def replaceAllAux (pat repl : List Char) : Nat → List Char → List Char
  | 0, s => s
  | _ + 1, [] => []
  | fuel + 1, c :: cs =>
    if pat.isPrefixOf (c :: cs) then
      repl ++ replaceAllAux pat repl fuel (List.drop pat.length (c :: cs))
    else
      c :: replaceAllAux pat repl fuel cs

/-- JS `s.replace(/pat/g, repl)` on strings. -/
def replaceAll (pat repl s : String) : String :=
  String.mk (replaceAllAux pat.data repl.data s.data.length s.data)

/-- The literal token replaced by the event type. -/
def tokenEventType : String := "\x7b\x7bevent_type\x7d\x7d"

/-- The literal token replaced by the event description. -/
def tokenEventDescription : String := "\x7b\x7bevent_description\x7d\x7d"

/-- The literal token replaced by the rendered event timestamp. -/
def tokenTimestamp : String := "\x7b\x7btimestamp\x7d\x7d"

/-- The literal token replaced by the confidence percentage. -/
def tokenConfidence : String := "\x7b\x7bconfidence\x7d\x7d"

/-- The confidence rendering `(e.confidence * 100).toFixed(0) + "%"`. -/
def confidenceString (e : DetectionEvent) : String :=
  toString e.confidencePct ++ "%"

/-- `replaceVariables`: the chained global replaces of the four
template tokens, in source order (event type, then description, then
timestamp, then confidence), each pass running on the output of the
previous one. -/
def replaceVariables (template : String) (e : DetectionEvent) : String :=
  replaceAll tokenConfidence (confidenceString e)
    (replaceAll tokenTimestamp e.timestampLocale
      (replaceAll tokenEventDescription e.description
        (replaceAll tokenEventType e.type template)))

/-- Helper for `flatReplaceSpec`: a single left-to-right pass replacing
each token occurrence by its value and copying every other character,
never rescanning emitted text. -/
def flatAux (e : DetectionEvent) : Nat → List Char → List Char
  | 0, s => s
  | _ + 1, [] => []
  | fuel + 1, c :: cs =>
    let s := c :: cs
    if tokenEventType.data.isPrefixOf s then
      e.type.data ++ flatAux e fuel (List.drop tokenEventType.data.length s)
    else if tokenEventDescription.data.isPrefixOf s then
      e.description.data ++ flatAux e fuel (List.drop tokenEventDescription.data.length s)
    else if tokenTimestamp.data.isPrefixOf s then
      e.timestampLocale.data ++ flatAux e fuel (List.drop tokenTimestamp.data.length s)
    else if tokenConfidence.data.isPrefixOf s then
      (confidenceString e).data ++ flatAux e fuel (List.drop tokenConfidence.data.length s)
    else
      c :: flatAux e fuel cs

/-- Modelled from the spec: a flat simultaneous find-and-replace on the
template, substituting each occurrence of the four literal tokens by
its value and altering no other part of the template.  This is the
substitution semantics the spec describes, kept separate from the
source's `replaceVariables` so the two can be compared. -/
def flatReplaceSpec (template : String) (e : DetectionEvent) : String :=
  String.mk (flatAux e template.data.length template.data)

/-- Queue entries of `getNodesByLevel`. -/
structure QItem where
  nodeId : String
  level : Nat
  deriving DecidableEq

/-- JS `levels[level].push(n)` on a possibly short array (a missing
slot is created; intermediate missing slots become empty levels, which
is how dense access reads a sparse JS array here). -/
def pushAt : List (List Node) → Nat → Node → List (List Node)
  | [], 0, n => [[n]]
  | [], k + 1, n => [] :: pushAt [] k n
  | l :: ls, 0, n => (l ++ [n]) :: ls
  | l :: ls, k + 1, n => l :: pushAt ls k n

/-- One dequeue step's edge loop: for every outgoing edge of the
current node, in order, push an unvisited non-trigger target onto the
current level and enqueue it at the next level. -/
def edgeStep (nodes : List Node) (visited : List String) (level : Nat)
    (acc : List (List Node) × List QItem) (e : Edge) : List (List Node) × List QItem :=
  match List.find? (fun n => n.id == e.target) nodes with
  | none => acc
  | some targetNode =>
    if visited.contains e.target then acc
    else if targetNode.data.nodeType == "trigger" then acc
    else (pushAt acc.1 level targetNode, acc.2 ++ [⟨e.target, level + 1⟩])

/-- The BFS loop of `getNodesByLevel`.  A node is marked visited when
dequeued; the fuel bounds the number of loop iterations (each concrete
run below uses far less than its fuel). -/
def bfsLoop (nodes : List Node) (edges : List Edge) :
    Nat → List QItem → List String → List (List Node) → List (List Node)
  | 0, _, _, levels => levels
  | _ + 1, [], _, levels => levels
  | fuel + 1, item :: rest, visited, levels =>
    if visited.contains item.nodeId then bfsLoop nodes edges fuel rest visited levels
    else
      let visited1 := item.nodeId :: visited
      let outgoing := List.filter (fun e => e.source == item.nodeId) edges
      let r := outgoing.foldl (edgeStep nodes visited1 item.level) (levels, [])
      bfsLoop nodes edges fuel (rest ++ r.2) visited1 r.1

/-- `getNodesByLevel`: group the nodes reachable from the trigger into
levels for parallel execution. -/
def getNodesByLevel (startNodeId : String) (nodes : List Node) (edges : List Edge) :
    List (List Node) :=
  bfsLoop nodes edges ((nodes.length + 1) * (edges.length + 1) + 1)
    [⟨startNodeId, 0⟩] [] []

/-- Execution record status. -/
inductive Status where
  | running
  | completed
  | failed
  deriving DecidableEq

/-- Observable dispatch events of one workflow execution: a block's
dispatch starting and a block's dispatch settling (`ok` is true when
`executeNode` resolved, false when it rejected and was caught at the
block boundary). -/
inductive Ev where
  | start (level : Nat) (id : String)
  | settle (level : Nat) (id : String) (ok : Bool)
  deriving DecidableEq

/-- The level index an event belongs to. -/
def evLevel : Ev → Nat
  | Ev.start l _ => l
  | Ev.settle l _ _ => l

/-- Whether an event is a settle event. -/
def evIsSettle : Ev → Bool
  | Ev.start _ _ => false
  | Ev.settle _ _ _ => true

/-- The dispatch events of one level: all dispatches start (in array
order, since `map` launches them synchronously) before any settles, and
they settle in an order chosen by the scheduler `σ`. -/
def levelSeg (dispatch : Node → Bool) (σ : Nat → List Node → List Node)
    (k : Nat) (lvl : List Node) : List Ev :=
  lvl.map (fun n => Ev.start k n.id)
    ++ (σ k lvl).map (fun n => Ev.settle k n.id (dispatch n))

/-- The per-level loop of `executeWorkflow`.  Arguments: current level
index, next notify-call index, remaining levels.  Returns the emitted
dispatch events, whether an observer throw aborted the loop, and the
next notify-call index.  Each level first notifies the observers
(`notifyExecutionUpdate`, inside the try block: a throw goes to the
catch and nothing of this or any later level runs), then dispatches
every block of the level, each dispatch being settled before the next
level starts (`await Promise.all`). -/
def runLevels (dispatch : Node → Bool) (σ : Nat → List Node → List Node)
    (ω : Nat → Bool) : Nat → Nat → List (List Node) → List Ev × Bool × Nat
  | _, c, [] => ([], false, c)
  | k, c, lvl :: rest =>
    if ω c then
      let r := runLevels dispatch σ ω (k + 1) (c + 1) rest
      (levelSeg dispatch σ k lvl ++ r.1, r.2.1, r.2.2)
    else ([], true, c + 1)

/-- Result of one `executeWorkflow` call: the statuses assigned to the
execution record in order, the dispatch events, and whether the call
itself rejected (an uncaught throw escaped). -/
structure ExecOutcome where
  statusHistory : List Status
  trace : List Ev
  threw : Bool
  deriving DecidableEq

/-- `executeWorkflow`.  Parameters model the environment: `planE` is
the result of `getNodesByLevel` (`Except.error` when plan computation
threw), `dispatch` gives each block dispatch's settled outcome (a
rejection is caught at the block boundary), `σ` the settle order within
a level, and `ω c` whether the `c`-th `notifyExecutionUpdate` call
returns normally (`false`: some observer callback threw).  Notify call
0 happens before the try block; one notify precedes each level's
dispatches; after the last level the status is set to completed and
notified; any throw inside the try block sets the status to failed and
notifies once more, a throw in that last call (or before the try)
escaping the coordinator. -/
def executeWorkflow (planE : Except Unit (List (List Node)))
    (dispatch : Node → Bool) (σ : Nat → List Node → List Node)
    (ω : Nat → Bool) : ExecOutcome :=
  if ω 0 then
    match planE with
    | Except.error _ => ⟨[Status.running, Status.failed], [], !(ω 1)⟩
    | Except.ok plan =>
      if (runLevels dispatch σ ω 0 1 plan).2.1 then
        ⟨[Status.running, Status.failed], (runLevels dispatch σ ω 0 1 plan).1,
          !(ω (runLevels dispatch σ ω 0 1 plan).2.2)⟩
      else if ω (runLevels dispatch σ ω 0 1 plan).2.2 then
        ⟨[Status.running, Status.completed],
          (runLevels dispatch σ ω 0 1 plan).1, false⟩
      else
        ⟨[Status.running, Status.completed, Status.failed],
          (runLevels dispatch σ ω 0 1 plan).1,
          !(ω ((runLevels dispatch σ ω 0 1 plan).2.2 + 1))⟩
  else ⟨[Status.running], [], true⟩

/-- Truthiness of an optional JS string: absent or empty is falsy. -/
def isFalsy : Option String → Bool
  | none => true
  | some s => s == ""

/-- `replaceVariables(template, event)` at a call site where the
template field may be absent: JS throws a TypeError when calling
`.replace` on `undefined`. -/
def replaceVariablesOpt (template : Option String) (e : DetectionEvent) :
    Except Unit String :=
  match template with
  | none => Except.error ()
  | some s => Except.ok (replaceVariables s e)

/-- `sendGmail`: unauthenticated or missing recipient no-ops with a
logged warning; otherwise the subject and body templates are resolved
(throwing when absent) and the backend request runs inside try/catch,
so network failures never escape. -/
def sendGmail (config : Config) (e : DetectionEvent) : Except Unit Unit :=
  if !config.authenticated then Except.ok ()
  else if isFalsy config.«to» then Except.ok ()
  else do
    let _ ← replaceVariablesOpt config.subject e
    let _ ← replaceVariablesOpt config.body e
    Except.ok ()

/-- `sendSlack`: unconfigured or missing channel no-ops; otherwise the
message template is resolved (throwing when absent), and the request
itself is guarded by try/catch. -/
def sendSlack (config : Config) (e : DetectionEvent) : Except Unit Unit :=
  if !config.configured || isFalsy config.channel then Except.ok ()
  else do
    let _ ← replaceVariablesOpt config.message e
    Except.ok ()

/-- `sendSMS`: missing recipient or missing body no-op; the body
template is then present, so its resolution cannot throw, and the
request is guarded by try/catch. -/
def sendSMS (config : Config) (e : DetectionEvent) : Except Unit Unit :=
  if isFalsy config.«to» then Except.ok ()
  else if isFalsy config.body then Except.ok ()
  else do
    let _ ← replaceVariablesOpt config.body e
    Except.ok ()

/-- `executeNode`: dispatch on the block subtype; `vapi_call`,
`webhook`, `database_log` and `save_screenshot` only log, and an
unknown subtype is a logged warning no-op. -/
def executeNode (node : Node) (e : DetectionEvent) : Except Unit Unit :=
  let nodeType := node.data.blockType
  let config := node.data.config
  if nodeType == "gmail" then sendGmail config e
  else if nodeType == "sms" then sendSMS config e
  else if nodeType == "slack" then sendSlack config e
  else if nodeType == "vapi_call" then Except.ok ()
  else if nodeType == "webhook" then Except.ok ()
  else if nodeType == "database_log" then Except.ok ()
  else if nodeType == "save_screenshot" then Except.ok ()
  else Except.ok ()

/-- A trigger node used by the concrete examples. -/
def fixtureTrigger : Node := ⟨"t", ⟨"trigger", "person_detected", "T", {}⟩⟩

/-- Action block A of the diamond example. -/
def fixtureA : Node := ⟨"A", ⟨"action", "gmail", "A", {}⟩⟩

/-- Action block B of the diamond example. -/
def fixtureB : Node := ⟨"B", ⟨"action", "slack", "B", {}⟩⟩

/-- The diamond graph's nodes. -/
def diamondNodes : List Node := [fixtureTrigger, fixtureA, fixtureB]

/-- The diamond graph's edges: trigger to A, trigger to B, A to B. -/
def diamondEdges : List Edge := [⟨"t", "A"⟩, ⟨"t", "B"⟩, ⟨"A", "B"⟩]

/-- Claim C1, counterexample: in the diamond graph trigger to A,
trigger to B, A to B, block B appears twice in the plan computed by
`getNodesByLevel` (once per incoming path), not exactly once as the
claim states: B is pushed into level 0 by the direct edge and again
into level 1 when A is dequeued, because a node is only marked visited
when dequeued. -/
theorem getNodesByLevel_diamond_duplicate :
    ((getNodesByLevel "t" diamondNodes diamondEdges).flatten.filter
        (fun n => n.id == "B")).length = 2 ∧
      ((getNodesByLevel "t" diamondNodes diamondEdges).flatten.filter
        (fun n => n.id == "B")).length ≠ 1 := by
  constructor
  · rfl
  · decide

/-- Claim C1 (amended): in the diamond graph the plan is
level 0 = [A, B], level 1 = [B]; block B appears in the level given by
the direct edge (level 0, its shortest hop distance from the trigger)
but also once more in level 1, reached through A, since a block is
marked visited only when dequeued and every discovery before that adds
it to a level. -/
theorem getNodesByLevel_diamond_plan :
    getNodesByLevel "t" diamondNodes diamondEdges =
      [[fixtureA, fixtureB], [fixtureB]] := by
  rfl

/-- Looking up a key just written returns the written value. -/
theorem mapGet_mapSet (m : CdMap) (k : String) (v : Int) :
    mapGet (mapSet m k v) k = some v := by
  simp [mapGet, mapSet, List.find?]

/-- Unfolding equation for `allowedTimes` on a cons cell. -/
theorem allowedTimes_cons (id : String) (t : Int) (ts : List Int) (m : CdMap) :
    allowedTimes id (t :: ts) m =
      if (checkCooldown m id t).1 then
        t :: allowedTimes id ts (checkCooldown m id t).2
      else allowedTimes id ts (checkCooldown m id t).2 := rfl

/-- The gate's value when the window has not yet elapsed. -/
theorem checkCooldown_suppress (m : CdMap) (id : String) (now : Int)
    (h : now - lastOf m id < TRIGGER_COOLDOWN_MS) :
    checkCooldown m id now = (false, m) := by
  unfold checkCooldown
  rw [if_pos h]

/-- The gate's value when the window has elapsed. -/
theorem checkCooldown_allow (m : CdMap) (id : String) (now : Int)
    (h : ¬(now - lastOf m id < TRIGGER_COOLDOWN_MS)) :
    checkCooldown m id now = (true, mapSet m id now) := by
  unfold checkCooldown
  rw [if_neg h]

/-- Every time the gate allows after the state holds a last-fire value
is at least one cooldown window after that value. -/
theorem allowedTimes_lower (id : String) :
    ∀ (ts : List Int) (m : CdMap), ∀ b ∈ allowedTimes id ts m,
      lastOf m id + TRIGGER_COOLDOWN_MS ≤ b := by
  intro ts
  induction ts with
  | nil =>
    intro m b hb
    simp [allowedTimes] at hb
  | cons t ts ih =>
    intro m b hb
    rw [allowedTimes_cons] at hb
    by_cases h : t - lastOf m id < TRIGGER_COOLDOWN_MS
    · rw [checkCooldown_suppress m id t h] at hb
      simp at hb
      exact ih m b hb
    · rw [checkCooldown_allow m id t h] at hb
      simp at hb
      rcases hb with rfl | hb
      · simp only [TRIGGER_COOLDOWN_MS] at h ⊢
        omega
      · have h2 := ih (mapSet m id t) b hb
        have h3 : lastOf (mapSet m id t) id = t := by
          simp [lastOf, mapGet_mapSet]
        simp only [TRIGGER_COOLDOWN_MS] at h h2 ⊢
        omega

/-- Any two allowed fire times of one trigger id are at least one
cooldown window apart, whatever the attempt times and initial state. -/
theorem allowedTimes_pairwise (id : String) :
    ∀ (ts : List Int) (m : CdMap),
      (allowedTimes id ts m).Pairwise
        (fun a b => a + TRIGGER_COOLDOWN_MS ≤ b) := by
  intro ts
  induction ts with
  | nil => intro m; simp [allowedTimes]
  | cons t ts ih =>
    intro m
    rw [allowedTimes_cons]
    by_cases h : t - lastOf m id < TRIGGER_COOLDOWN_MS
    · rw [checkCooldown_suppress m id t h]
      simpa using ih m
    · rw [checkCooldown_allow m id t h]
      simp only [List.pairwise_cons, if_pos]
      constructor
      · intro b hb
        have h2 := allowedTimes_lower id ts (mapSet m id t) b hb
        have h3 : lastOf (mapSet m id t) id = t := by
          simp [lastOf, mapGet_mapSet]
        rw [h3] at h2
        exact h2
      · exact ih (mapSet m id t)

/-- Claim C3, counterexample: with no entry recorded for the trigger
id, an attempt at time 0 is suppressed, contradicting the claim that
the gate allows whenever no entry exists: the code reads an absent
entry as last-fire time 0. -/
theorem checkCooldown_no_entry_zero_suppressed :
    mapGet ([] : CdMap) "t1" = none ∧
      (checkCooldown ([] : CdMap) "t1" 0).1 = false := by
  constructor
  · rfl
  · decide

/-- Claim C3 (amended): the gate allows a fire exactly when now minus
the recorded last-fire time, an absent entry being read as 0, is at
least the fixed 60s window; a suppressed fire mutates nothing; an
allowed fire records now as the new last-fire time; any two allowed
fires of one trigger id are at least the window apart; and the example
sequence of attempts at 0s, 30s and 61s from an empty state yields
suppressed, suppressed, allowed. -/
theorem checkCooldown_gate_spec :
    (∀ (m : CdMap) (id : String) (now : Int),
        ((checkCooldown m id now).1 = true ↔
          TRIGGER_COOLDOWN_MS ≤ now - lastOf m id)) ∧
      (∀ (m : CdMap) (id : String) (now : Int),
        (checkCooldown m id now).1 = false → (checkCooldown m id now).2 = m) ∧
      (∀ (m : CdMap) (id : String) (now : Int),
        (checkCooldown m id now).1 = true →
          mapGet (checkCooldown m id now).2 id = some now) ∧
      (∀ (id : String) (ts : List Int) (m : CdMap),
        (allowedTimes id ts m).Pairwise
          (fun a b => a + TRIGGER_COOLDOWN_MS ≤ b)) ∧
      runCooldown "t1" [0, 30000, 61000] ([] : CdMap) =
        [false, false, true] := by
  refine ⟨?_, ?_, ?_, allowedTimes_pairwise, by decide⟩
  · intro m id now
    by_cases h : now - lastOf m id < TRIGGER_COOLDOWN_MS
    · rw [checkCooldown_suppress m id now h]
      simp only [TRIGGER_COOLDOWN_MS] at h ⊢
      simp
      omega
    · rw [checkCooldown_allow m id now h]
      simp only [TRIGGER_COOLDOWN_MS] at h ⊢
      simp
      omega
  · intro m id now hf
    by_cases h : now - lastOf m id < TRIGGER_COOLDOWN_MS
    · rw [checkCooldown_suppress m id now h]
    · rw [checkCooldown_allow m id now h] at hf
      simp at hf
  · intro m id now ht
    by_cases h : now - lastOf m id < TRIGGER_COOLDOWN_MS
    · rw [checkCooldown_suppress m id now h] at ht
      simp at ht
    · rw [checkCooldown_allow m id now h]
      exact mapGet_mapSet m id now

/-- Witness for `checkCooldown_gate_spec`: an allowed fire at time
70000 from the empty state records 70000. -/
theorem checkCooldown_gate_spec_witness :
    mapGet (checkCooldown ([] : CdMap) "t1" 70000).2 "t1" = some 70000 :=
  checkCooldown_gate_spec.2.2.1 ([] : CdMap) "t1" 70000 (by decide)

/-- The alias rule accepts every event for the `object_detected`
subtype. -/
theorem matchesBuiltin_object_detected (e : DetectionEvent) :
    matchesBuiltin "object_detected" e = true := by
  simp only [matchesBuiltin]
  split_ifs <;> rfl

/-- The robbery example's trigger node. -/
def robberyTrigger : Node := ⟨"r", ⟨"trigger", "robbery_detected", "R", {}⟩⟩

/-- The robbery example's event window. -/
def robberyWindow : List DetectionEvent :=
  [⟨"PERSON_ENTERED", "", "", 0⟩, ⟨"ROBBERY_DETECTED", "", "", 90⟩]

/-- Claim C5: for a non-custom trigger subtype, the trigger matches an
event window exactly when at least one event in the window satisfies
the subtype's per-event alias rule (an OR over the window); the
`object_detected` subtype matches exactly the non-empty windows; and
the `robbery_detected` subtype matches the window
[PERSON_ENTERED, ROBBERY_DETECTED]. -/
theorem checkTrigger_any_of_window :
    ∀ (oracle : Except Unit (Option String)) (t : Node)
      (events : List DetectionEvent),
      t.data.blockType ≠ "custom_event" →
      ((checkTrigger oracle t events = true ↔
          ∃ e ∈ events, matchesBuiltin t.data.blockType e = true) ∧
        (t.data.blockType = "object_detected" →
          (checkTrigger oracle t events = true ↔ events ≠ [])) ∧
        checkTrigger oracle robberyTrigger robberyWindow = true) := by
  intro oracle t events h
  have hb : (t.data.blockType == "custom_event") = false := by
    simpa using h
  refine ⟨?_, ?_, ?_⟩
  · simp only [checkTrigger]
    rw [hb]
    simp [List.any_eq_true]
  · intro hob
    simp only [checkTrigger]
    rw [hb]
    simp only [Bool.false_eq_true, if_false]
    rw [hob]
    cases events with
    | nil => simp
    | cons e es => simp [matchesBuiltin_object_detected]
  · have hr : checkTrigger oracle robberyTrigger robberyWindow =
        robberyWindow.any (fun e => matchesBuiltin "robbery_detected" e) := by
      simp only [checkTrigger]
      rfl
    rw [hr]
    decide

/-- Witness for `checkTrigger_any_of_window`: at the robbery window
some event satisfies the robbery alias rule. -/
theorem checkTrigger_any_of_window_witness :
    ∃ e ∈ robberyWindow, matchesBuiltin "robbery_detected" e = true :=
  ((checkTrigger_any_of_window (Except.error ()) robberyTrigger robberyWindow
      (by decide)).1).mp (by decide)

/-- Claim C6: semantic (custom-subtype) trigger matching is
fail-closed: an empty condition string, an empty event window, or an
oracle error each make `checkCustomTrigger` return false (and the
single oracle consultation of the matching cycle is never retried). -/
theorem checkCustomTrigger_fail_closed :
    ∀ (condition : String) (events : List DetectionEvent)
      (oracle : Except Unit (Option String)),
      condition = "" ∨ events = [] ∨ (∃ u, oracle = Except.error u) →
      checkCustomTrigger condition events oracle = false := by
  intro condition events oracle h
  rcases h with rfl | rfl | ⟨u, rfl⟩
  · rfl
  · unfold checkCustomTrigger
    split_ifs with h1 h2
    · rfl
    · rfl
    · exact absurd rfl h2
  · unfold checkCustomTrigger
    split_ifs <;> rfl

/-- Witness for `checkCustomTrigger_fail_closed`: an empty condition
yields false even with a nonempty window and an affirmative oracle. -/
theorem checkCustomTrigger_fail_closed_witness :
    checkCustomTrigger "" robberyWindow (Except.ok (some "YES")) = false :=
  checkCustomTrigger_fail_closed "" robberyWindow (Except.ok (some "YES"))
    (Or.inl rfl)

/-- A gmail block that is authenticated and has a recipient but no
subject template. -/
def gmailMissingSubject : Node :=
  ⟨"g", ⟨"action", "gmail", "G",
    { authenticated := true, «to» := some "a@b.c", body := some "hi" }⟩⟩

/-- Claim C9, counterexample: dispatching a gmail block that is
authenticated and has a recipient but whose subject template is absent
throws (the TypeError of calling `.replace` on `undefined` in
`replaceVariables`), instead of no-opping with a logged warning as the
claim states. -/
theorem executeNode_gmail_missing_subject_throws :
    executeNode gmailMissingSubject ⟨"E", "", "", 0⟩ = Except.error () := by
  rfl

/-- Claim C9 (amended): dispatch of an unknown subtype is a no-op with
a logged warning, and a gmail block that is unauthenticated or lacks a
recipient is a no-op with a logged warning; but a gmail block that is
authenticated and has a recipient and whose subject or body template
string is absent throws a type error out of the dispatcher (it is
caught upstream at the block boundary of the level loop, not inside the
dispatcher). -/
theorem executeNode_config_handling :
    (∀ (node : Node) (e : DetectionEvent),
        node.data.blockType ∉ (["gmail", "sms", "slack", "vapi_call",
          "webhook", "database_log", "save_screenshot"] : List String) →
        executeNode node e = Except.ok ()) ∧
      (∀ (config : Config) (e : DetectionEvent),
        config.authenticated = false → sendGmail config e = Except.ok ()) ∧
      (∀ (config : Config) (e : DetectionEvent),
        isFalsy config.«to» = true → sendGmail config e = Except.ok ()) ∧
      (∀ (config : Config) (e : DetectionEvent),
        config.authenticated = true → isFalsy config.«to» = false →
        config.subject = none ∨ config.body = none →
        sendGmail config e = Except.error ()) := by
  refine ⟨?_, ?_, ?_, ?_⟩
  · intro node e h
    simp only [List.mem_cons, List.not_mem_nil, or_false, not_or] at h
    obtain ⟨h1, h2, h3, h4, h5, h6, h7⟩ := h
    simp only [executeNode, beq_iff_eq]
    rw [if_neg h1, if_neg h2, if_neg h3, if_neg h4, if_neg h5, if_neg h6,
      if_neg h7]
  · intro config e h
    unfold sendGmail
    rw [h]
    rfl
  · intro config e h
    unfold sendGmail
    rw [h]
    cases ha : config.authenticated <;> rfl
  · intro config e ha ht hsb
    unfold sendGmail
    rw [ha, ht]
    simp only [Bool.not_true, Bool.false_eq_true, if_false]
    rcases hsb with hs | hb
    · rw [hs]
      rfl
    · cases hs : config.subject with
      | none => rfl
      | some s =>
        rw [hb]
        rfl

/-- Witness for `executeNode_config_handling`: an unauthenticated gmail
block no-ops. -/
theorem executeNode_config_handling_witness :
    sendGmail {} ⟨"E", "", "", 0⟩ = Except.ok () :=
  executeNode_config_handling.2.1 {} ⟨"E", "", "", 0⟩ rfl

/-- An event whose type field is itself the literal confidence token. -/
def tokenTypedEvent : DetectionEvent := ⟨tokenConfidence, "d", "ts", 87⟩

/-- Claim C10, counterexample: template substitution is not a flat
find-and-replace: on the template consisting of the event-type token,
with an event whose type is the literal string of the confidence token,
the code produces the confidence rendering (the later confidence pass
rewrites the text injected by the event-type pass) instead of leaving
the injected event type untouched as a flat substitution would. -/
theorem replaceVariables_not_flat :
    replaceVariables tokenEventType tokenTypedEvent ≠
        flatReplaceSpec tokenEventType tokenTypedEvent ∧
      replaceVariables tokenEventType tokenTypedEvent = "87%" ∧
      flatReplaceSpec tokenEventType tokenTypedEvent = tokenTypedEvent.type := by
  refine ⟨by decide, rfl, rfl⟩

/-- The spec's example template body. -/
def exampleBody : String :=
  "Alert: \x7b\x7bevent_type\x7d\x7d at \x7b\x7btimestamp\x7d\x7d"

/-- The spec's example event. -/
def exampleEvent : DetectionEvent :=
  ⟨"FIGHT_DETECTED", "d", "10/12/2026, 10:00:00 AM", 87⟩

/-- Claim C10 (amended): substitution is a chain of four global
find-and-replace passes in a fixed order (event type, description,
timestamp, confidence), each pass running on the output of the
previous one, so a later pass also rewrites token occurrences that an
earlier substitution spliced together, and the result can differ from
a flat simultaneous substitution; on the spec's example body and event
it resolves to a string containing the literal event type and the
timestamp rendering, and on that input it agrees with the flat
substitution. -/
theorem replaceVariables_example :
    replaceVariables exampleBody exampleEvent =
        "Alert: FIGHT_DETECTED at 10/12/2026, 10:00:00 AM" ∧
      flatReplaceSpec exampleBody exampleEvent =
        replaceVariables exampleBody exampleEvent ∧
      containsSub (replaceVariables exampleBody exampleEvent)
        "FIGHT_DETECTED" = true ∧
      containsSub (replaceVariables exampleBody exampleEvent)
        exampleEvent.timestampLocale = true := by
  refine ⟨rfl, rfl, by decide, by decide⟩

/-- The precedence relation every execution trace satisfies: an
earlier event belongs to a strictly earlier level, or to the same
level without being a settle followed by a start. -/
def evR (a b : Ev) : Prop :=
  evLevel a < evLevel b ∨
    (evLevel a = evLevel b ∧ (evIsSettle a = false ∨ evIsSettle b = true))

/-- A relation that always holds is pairwise on every list. -/
theorem pairwise_of_total {α : Type} {R : α → α → Prop} (h : ∀ a b, R a b) :
    ∀ l : List α, l.Pairwise R
  | [] => List.Pairwise.nil
  | a :: l => List.Pairwise.cons (fun b _ => h a b) (pairwise_of_total h l)

/-- Every event of a level segment carries that level's index. -/
theorem evLevel_levelSeg (dispatch : Node → Bool)
    (σ : Nat → List Node → List Node) (k : Nat) (lvl : List Node) :
    ∀ e ∈ levelSeg dispatch σ k lvl, evLevel e = k := by
  intro e he
  unfold levelSeg at he
  rw [List.mem_append] at he
  rcases he with he | he <;>
    · rw [List.mem_map] at he
      obtain ⟨n, _, rfl⟩ := he
      rfl

/-- Within one level segment the precedence relation holds pairwise:
starts come before settles and everything shares the level index. -/
theorem levelSeg_pairwise (dispatch : Node → Bool)
    (σ : Nat → List Node → List Node) (k : Nat) (lvl : List Node) :
    (levelSeg dispatch σ k lvl).Pairwise evR := by
  unfold levelSeg
  rw [List.pairwise_append]
  refine ⟨?_, ?_, ?_⟩
  · rw [List.pairwise_map]
    exact pairwise_of_total (fun a b => Or.inr ⟨rfl, Or.inl rfl⟩) lvl
  · rw [List.pairwise_map]
    exact pairwise_of_total (fun a b => Or.inr ⟨rfl, Or.inr rfl⟩) (σ k lvl)
  · intro a ha b hb
    rw [List.mem_map] at ha hb
    obtain ⟨n1, _, rfl⟩ := ha
    obtain ⟨n2, _, rfl⟩ := hb
    exact Or.inr ⟨rfl, Or.inl rfl⟩

/-- The per-level segments of a plan, starting at a given level
index. -/
def segsFrom (dispatch : Node → Bool) (σ : Nat → List Node → List Node) :
    Nat → List (List Node) → List (List Ev)
  | _, [] => []
  | k, lvl :: rest =>
    levelSeg dispatch σ k lvl :: segsFrom dispatch σ (k + 1) rest

/-- Events of segments starting at level k have level at least k. -/
theorem segsFrom_level_lb (dispatch : Node → Bool)
    (σ : Nat → List Node → List Node) :
    ∀ (plan : List (List Node)) (k : Nat),
      ∀ s ∈ segsFrom dispatch σ k plan, ∀ e ∈ s, k ≤ evLevel e := by
  intro plan
  induction plan with
  | nil =>
    intro k s hs
    simp [segsFrom] at hs
  | cons lvl rest ih =>
    intro k s hs e he
    rw [segsFrom, List.mem_cons] at hs
    rcases hs with rfl | hs
    · rw [evLevel_levelSeg dispatch σ k lvl e he]
    · have h2 := ih (k + 1) s hs e he
      omega

/-- Each segment individually satisfies the precedence relation. -/
theorem segsFrom_member_pairwise (dispatch : Node → Bool)
    (σ : Nat → List Node → List Node) :
    ∀ (plan : List (List Node)) (k : Nat),
      ∀ s ∈ segsFrom dispatch σ k plan, s.Pairwise evR := by
  intro plan
  induction plan with
  | nil =>
    intro k s hs
    simp [segsFrom] at hs
  | cons lvl rest ih =>
    intro k s hs
    rw [segsFrom, List.mem_cons] at hs
    rcases hs with rfl | hs
    · exact levelSeg_pairwise dispatch σ k lvl
    · exact ih (k + 1) s hs

/-- Across segments the precedence relation holds pairwise: an event
of an earlier segment has a strictly smaller level. -/
theorem segsFrom_pairwise (dispatch : Node → Bool)
    (σ : Nat → List Node → List Node) :
    ∀ (plan : List (List Node)) (k : Nat),
      (segsFrom dispatch σ k plan).Pairwise
        (fun s1 s2 => ∀ a ∈ s1, ∀ b ∈ s2, evR a b) := by
  intro plan
  induction plan with
  | nil => intro k; simp [segsFrom]
  | cons lvl rest ih =>
    intro k
    rw [segsFrom, List.pairwise_cons]
    constructor
    · intro s hs a ha b hb
      have hk : evLevel a = k := evLevel_levelSeg dispatch σ k lvl a ha
      have hk2 := segsFrom_level_lb dispatch σ rest (k + 1) s hs b hb
      exact Or.inl (by omega)
    · exact ih (k + 1)

/-- Unfolding equation for `runLevels` on a cons cell. -/
theorem runLevels_cons (dispatch : Node → Bool)
    (σ : Nat → List Node → List Node) (ω : Nat → Bool) (k c : Nat)
    (lvl : List Node) (rest : List (List Node)) :
    runLevels dispatch σ ω k c (lvl :: rest) =
      if ω c then
        (levelSeg dispatch σ k lvl ++
            (runLevels dispatch σ ω (k + 1) (c + 1) rest).1,
          (runLevels dispatch σ ω (k + 1) (c + 1) rest).2.1,
          (runLevels dispatch σ ω (k + 1) (c + 1) rest).2.2)
      else ([], true, c + 1) := rfl

/-- The trace of the level loop is the concatenation of an initial run
of the plan's segments, all of them when no observer throw aborted the
loop. -/
theorem runLevels_trace_flatten (dispatch : Node → Bool)
    (σ : Nat → List Node → List Node) (ω : Nat → Bool) :
    ∀ (plan : List (List Node)) (k c : Nat),
      ∃ m, (runLevels dispatch σ ω k c plan).1 =
          ((segsFrom dispatch σ k plan).take m).flatten ∧
        ((runLevels dispatch σ ω k c plan).2.1 = false →
          (segsFrom dispatch σ k plan).take m = segsFrom dispatch σ k plan) := by
  intro plan
  induction plan with
  | nil =>
    intro k c
    exact ⟨0, rfl, fun _ => rfl⟩
  | cons lvl rest ih =>
    intro k c
    cases hω : ω c with
    | true =>
      obtain ⟨m, hm, hab⟩ := ih (k + 1) (c + 1)
      refine ⟨m + 1, ?_, ?_⟩
      · rw [runLevels_cons, hω]
        simp only [if_true]
        rw [hm, segsFrom]
        rfl
      · intro hf
        rw [runLevels_cons, hω] at hf
        simp only [if_true] at hf
        rw [segsFrom, List.take_succ_cons, hab hf]
    | false =>
      refine ⟨0, ?_, ?_⟩
      · rw [runLevels_cons, hω]
        simp
      · intro hf
        rw [runLevels_cons, hω] at hf
        simp at hf

/-- The level loop's trace satisfies the precedence relation
pairwise. -/
theorem runLevels_pairwise (dispatch : Node → Bool)
    (σ : Nat → List Node → List Node) (ω : Nat → Bool)
    (plan : List (List Node)) (k c : Nat) :
    (runLevels dispatch σ ω k c plan).1.Pairwise evR := by
  obtain ⟨m, hm, _⟩ := runLevels_trace_flatten dispatch σ ω plan k c
  rw [hm, List.pairwise_flatten]
  constructor
  · intro s hs
    exact segsFrom_member_pairwise dispatch σ plan k s (List.mem_of_mem_take hs)
  · exact List.Pairwise.sublist (List.take_sublist m _)
      (segsFrom_pairwise dispatch σ plan k)

/-- The executed trace of a plan is the level loop's trace (empty when
the initial notification throws). -/
theorem executeWorkflow_trace_ok (plan : List (List Node))
    (dispatch : Node → Bool) (σ : Nat → List Node → List Node)
    (ω : Nat → Bool) :
    (executeWorkflow (Except.ok plan) dispatch σ ω).trace =
      if ω 0 then (runLevels dispatch σ ω 0 1 plan).1 else [] := by
  unfold executeWorkflow
  cases h0 : ω 0 with
  | true =>
    simp only [if_true]
    split_ifs <;> rfl
  | false => rfl

/-- Every execution trace satisfies the precedence relation
pairwise. -/
theorem executeWorkflow_trace_pairwise (planE : Except Unit (List (List Node)))
    (dispatch : Node → Bool) (σ : Nat → List Node → List Node)
    (ω : Nat → Bool) :
    (executeWorkflow planE dispatch σ ω).trace.Pairwise evR := by
  cases planE with
  | error u =>
    unfold executeWorkflow
    cases h0 : ω 0 <;> exact List.Pairwise.nil
  | ok plan =>
    rw [executeWorkflow_trace_ok]
    cases h0 : ω 0 with
    | true => exact runLevels_pairwise dispatch σ ω plan 0 1
    | false => exact List.Pairwise.nil

/-- When a start event of level k+j+1 appears in the level loop's
trace, level k+j ran in full, so every one of its blocks has a settle
event (with its own dispatch outcome) in the trace. -/
theorem settle_of_start_next (dispatch : Node → Bool)
    (σ : Nat → List Node → List Node) (ω : Nat → Bool)
    (hσ : ∀ k l, (σ k l).Perm l) :
    ∀ (plan : List (List Node)) (k c j : Nat) (b : String) (lvl : List Node),
      Ev.start (k + j + 1) b ∈ (runLevels dispatch σ ω k c plan).1 →
      plan.get? j = some lvl →
      ∀ n ∈ lvl,
        Ev.settle (k + j) n.id (dispatch n) ∈
          (runLevels dispatch σ ω k c plan).1 := by
  intro plan
  induction plan with
  | nil =>
    intro k c j b lvl hs hget
    simp [runLevels] at hs
  | cons l ls ih =>
    intro k c j b lvl hs hget n hn
    cases hω : ω c with
    | false =>
      rw [runLevels_cons, hω] at hs
      simp at hs
    | true =>
      rw [runLevels_cons, hω] at hs ⊢
      simp only [if_true] at hs ⊢
      cases j with
      | zero =>
        have hl : l = lvl := by
          simpa using hget
        subst hl
        apply List.mem_append_left
        unfold levelSeg
        apply List.mem_append_right
        rw [List.mem_map]
        exact ⟨n, ((hσ k l).mem_iff).mpr hn, by simp⟩
      | succ j =>
        rw [List.mem_append] at hs
        rcases hs with hs | hs
        · have := evLevel_levelSeg dispatch σ k l _ hs
          simp [evLevel] at this
          omega
        · have harith : k + (j + 1) + 1 = (k + 1) + j + 1 := by omega
          rw [harith] at hs
          have hget2 : ls.get? j = some lvl := by
            simpa using hget
          have h2 := ih (k + 1) (c + 1) j b lvl hs hget2 n hn
          have harith2 : (k + 1) + j = k + (j + 1) := by omega
          rw [harith2] at h2
          exact List.mem_append_right _ h2

/-- The dispatch event trace of one execution. -/
abbrev execTrace (planE : Except Unit (List (List Node)))
    (dispatch : Node → Bool) (σ : Nat → List Node → List Node)
    (ω : Nat → Bool) : List Ev :=
  (executeWorkflow planE dispatch σ ω).trace

/-- Claim C2: levels execute in non-decreasing level-index order with a
level-synchronous barrier: in every execution of a plan, trace
positions never decrease in level; a settle of level k always precedes
a start of level k+1; and whenever any dispatch of level k+1 starts,
every block of level k already has its settle event in the trace; and
within one level no order is guaranteed between blocks: the two
scheduler choices below realize both settle orders of the same
two-block level. -/
theorem executeWorkflow_level_barrier :
    ∀ (plan : List (List Node)) (dispatch : Node → Bool)
      (σ : Nat → List Node → List Node) (ω : Nat → Bool),
      (∀ k l, (σ k l).Perm l) →
      ((∀ (i j : Fin (execTrace (Except.ok plan) dispatch σ ω).length),
          i < j →
          evLevel ((execTrace (Except.ok plan) dispatch σ ω).get i) ≤
            evLevel ((execTrace (Except.ok plan) dispatch σ ω).get j)) ∧
        (∀ (i j : Fin (execTrace (Except.ok plan) dispatch σ ω).length)
            (k : Nat) (a b : String) (oa : Bool),
          (execTrace (Except.ok plan) dispatch σ ω).get i = Ev.settle k a oa →
          (execTrace (Except.ok plan) dispatch σ ω).get j = Ev.start (k + 1) b →
          (i : Nat) < (j : Nat)) ∧
        (∀ (k : Nat) (lvl : List Node) (b : String),
          Ev.start (k + 1) b ∈ execTrace (Except.ok plan) dispatch σ ω →
          plan.get? k = some lvl →
          ∀ n ∈ lvl, Ev.settle k n.id (dispatch n) ∈
            execTrace (Except.ok plan) dispatch σ ω) ∧
        execTrace (Except.ok [[fixtureA, fixtureB]]) (fun _ => true)
            (fun _ l => l) (fun _ => true) =
          [Ev.start 0 "A", Ev.start 0 "B", Ev.settle 0 "A" true,
            Ev.settle 0 "B" true] ∧
        execTrace (Except.ok [[fixtureA, fixtureB]]) (fun _ => true)
            (fun _ l => l.reverse) (fun _ => true) =
          [Ev.start 0 "A", Ev.start 0 "B", Ev.settle 0 "B" true,
            Ev.settle 0 "A" true]) := by
  intro plan dispatch σ ω hσ
  have hp := executeWorkflow_trace_pairwise (Except.ok plan) dispatch σ ω
  rw [List.pairwise_iff_get] at hp
  refine ⟨?_, ?_, ?_, rfl, rfl⟩
  · intro i j hij
    rcases hp i j hij with h | ⟨h, _⟩
    · exact le_of_lt h
    · exact le_of_eq h
  · intro i j k a b oa hi hj
    rcases Nat.lt_trichotomy (i : Nat) (j : Nat) with hlt | heq | hgt
    · exact hlt
    · exfalso
      have hij : i = j := Fin.ext heq
      rw [hij, hj] at hi
      exact absurd hi (by simp)
    · exfalso
      have h2 := hp j i hgt
      rw [hi, hj] at h2
      rcases h2 with h | ⟨h, _⟩
      · simp only [evLevel] at h
        omega
      · simp only [evLevel] at h
        omega
  · intro k lvl b hstart hget n hn
    simp only [execTrace] at hstart ⊢
    rw [executeWorkflow_trace_ok] at hstart ⊢
    by_cases h0 : ω 0 = true
    case neg =>
      rw [if_neg h0] at hstart
      simp at hstart
    case pos =>
      rw [if_pos h0] at hstart ⊢
      have ha : 0 + k + 1 = k + 1 := by omega
      rw [← ha] at hstart
      have h2 := settle_of_start_next dispatch σ ω hσ plan 0 1 k b lvl
        hstart hget n hn
      have hb : 0 + k = k := by omega
      rw [hb] at h2
      exact h2

/-- Witness for `executeWorkflow_level_barrier`: in the two-level plan
[[A], [B]], block B's level-1 start forces block A's level-0 settle to
be in the trace. -/
theorem executeWorkflow_level_barrier_witness :
    Ev.settle 0 "A" true ∈ execTrace (Except.ok [[fixtureA], [fixtureB]])
      (fun _ => true) (fun _ l => l) (fun _ => true) :=
  (executeWorkflow_level_barrier [[fixtureA], [fixtureB]] (fun _ => true)
      (fun _ l => l) (fun _ => true) (fun k l => List.Perm.refl l)).2.2.1
    0 [fixtureA] "B" (by decide) (by decide) fixtureA (by decide)

/-- With observers that never throw the level loop never aborts. -/
theorem runLevels_no_abort (dispatch : Node → Bool)
    (σ : Nat → List Node → List Node) (ω : Nat → Bool)
    (hω : ∀ c, ω c = true) :
    ∀ (plan : List (List Node)) (k c : Nat),
      (runLevels dispatch σ ω k c plan).2.1 = false := by
  intro plan
  induction plan with
  | nil => intro k c; rfl
  | cons lvl rest ih =>
    intro k c
    rw [runLevels_cons, hω c]
    simp only [if_true]
    exact ih (k + 1) (c + 1)

/-- With observers that never throw, every block of every plan level
has its settle event (with its own dispatch outcome) in the level
loop's trace. -/
theorem runLevels_all_settle (dispatch : Node → Bool)
    (σ : Nat → List Node → List Node) (ω : Nat → Bool)
    (hσ : ∀ k l, (σ k l).Perm l) (hω : ∀ c, ω c = true) :
    ∀ (plan : List (List Node)) (k c j : Nat) (lvl : List Node),
      plan.get? j = some lvl →
      ∀ n ∈ lvl, Ev.settle (k + j) n.id (dispatch n) ∈
        (runLevels dispatch σ ω k c plan).1 := by
  intro plan
  induction plan with
  | nil =>
    intro k c j lvl hget
    simp at hget
  | cons l ls ih =>
    intro k c j lvl hget n hn
    rw [runLevels_cons, hω c]
    simp only [if_true]
    cases j with
    | zero =>
      have hl : l = lvl := by
        simpa using hget
      subst hl
      apply List.mem_append_left
      unfold levelSeg
      apply List.mem_append_right
      rw [List.mem_map]
      exact ⟨n, ((hσ k l).mem_iff).mpr hn, by simp⟩
    | succ j =>
      have hget2 : ls.get? j = some lvl := by
        simpa using hget
      have h2 := ih (k + 1) (c + 1) j lvl hget2 n hn
      have harith : k + 1 + j = k + (j + 1) := by omega
      rw [harith] at h2
      exact List.mem_append_right _ h2

/-- Claim C4: a block dispatch failure is caught at the block boundary
and is not a coordination failure: with observers that do not throw,
whatever each block dispatch's outcome (any mix of successes and
failures), every level still runs, every block settles with its own
outcome, and the record ends completed with nothing escaping the
coordinator; only a coordination failure such as a thrown plan
computation drives the record to failed. -/
theorem executeWorkflow_block_failure_isolated :
    ∀ (plan : List (List Node)) (dispatch : Node → Bool)
      (σ : Nat → List Node → List Node) (ω : Nat → Bool),
      (∀ c, ω c = true) → (∀ k l, (σ k l).Perm l) →
      ((executeWorkflow (Except.ok plan) dispatch σ ω).statusHistory =
          [Status.running, Status.completed] ∧
        (executeWorkflow (Except.ok plan) dispatch σ ω).threw = false ∧
        (∀ (k : Nat) (lvl : List Node), plan.get? k = some lvl →
          ∀ n ∈ lvl, Ev.settle k n.id (dispatch n) ∈
            (executeWorkflow (Except.ok plan) dispatch σ ω).trace) ∧
        (executeWorkflow (Except.error ()) dispatch σ ω).statusHistory =
          [Status.running, Status.failed]) := by
  intro plan dispatch σ ω hω hσ
  have hab := runLevels_no_abort dispatch σ ω hω plan 0 1
  have hok : executeWorkflow (Except.ok plan) dispatch σ ω =
      ⟨[Status.running, Status.completed],
        (runLevels dispatch σ ω 0 1 plan).1, false⟩ := by
    simp [executeWorkflow, hω, hab]
  refine ⟨by rw [hok], by rw [hok], ?_, ?_⟩
  · intro k lvl hget n hn
    rw [hok]
    have h2 := runLevels_all_settle dispatch σ ω hσ hω plan 0 1 k lvl hget n hn
    have hz : 0 + k = k := by omega
    rw [hz] at h2
    exact h2
  · unfold executeWorkflow
    rw [hω 0]
    simp

/-- Witness for `executeWorkflow_block_failure_isolated`: in a level
where block B's dispatch fails and sibling A's succeeds, the record
still completes and B settles with a failure outcome. -/
theorem executeWorkflow_block_failure_isolated_witness :
    (executeWorkflow (Except.ok [[fixtureA, fixtureB]])
          (fun n => n.id != "B") (fun _ l => l)
          (fun _ => true)).statusHistory =
        [Status.running, Status.completed] ∧
      Ev.settle 0 "B" false ∈ (executeWorkflow (Except.ok [[fixtureA, fixtureB]])
        (fun n => n.id != "B") (fun _ l => l) (fun _ => true)).trace := by
  have h := executeWorkflow_block_failure_isolated [[fixtureA, fixtureB]]
    (fun n => n.id != "B") (fun _ l => l) (fun _ => true)
    (fun c => rfl) (fun k l => List.Perm.refl l)
  exact ⟨h.1, h.2.2.1 0 [fixtureA, fixtureB] (by decide) fixtureB (by decide)⟩

/-- Claim C7, counterexample: with a single one-block level whose
dispatch succeeds, an observer callback that throws on the first
in-try progress notification aborts the level loop (no dispatch runs)
and drives the record to failed, refuting the claim that a throwing
observer leaves the level loop and the final status unaffected. -/
theorem observer_throw_fails_execution :
    (executeWorkflow (Except.ok [[fixtureA]]) (fun _ => true) (fun _ l => l)
          (fun c => c != 1)).statusHistory =
        [Status.running, Status.failed] ∧
      (executeWorkflow (Except.ok [[fixtureA]]) (fun _ => true) (fun _ l => l)
          (fun c => c != 1)).trace = [] :=
  ⟨rfl, rfl⟩

/-- Claim C7 (amended): observer notification is synchronous and
unguarded, so a throwing observer propagates into the coordinator: a
throw at the first in-try notification (before any dispatch of the
first level) aborts every level and drives the record to failed, and a
throw at the initial notification, before the try block, leaves the
record running and escapes the coordinator. -/
theorem observer_throw_propagates :
    (∀ (lvl : List Node) (rest : List (List Node)) (dispatch : Node → Bool)
        (σ : Nat → List Node → List Node),
      executeWorkflow (Except.ok (lvl :: rest)) dispatch σ (fun c => c != 1) =
        ⟨[Status.running, Status.failed], [], false⟩) ∧
      (∀ (planE : Except Unit (List (List Node))) (dispatch : Node → Bool)
          (σ : Nat → List Node → List Node),
        executeWorkflow planE dispatch σ (fun c => c != 0) =
          ⟨[Status.running], [], true⟩) :=
  ⟨fun _ _ _ _ => rfl, fun _ _ _ => rfl⟩

/-- Claim C8, counterexample: when the observer throws exactly on the
completion notification, the record's status is set to completed and
then set again to failed, so completed is not terminal within one
execution. -/
theorem execution_status_completed_then_failed :
    (executeWorkflow (Except.ok [[fixtureA]]) (fun _ => true) (fun _ l => l)
        (fun c => c != 2)).statusHistory =
      [Status.running, Status.completed, Status.failed] :=
  rfl

/-- Claim C8 (amended): the status history of every execution is one of
[running], [running, completed], [running, failed] or
[running, completed, failed]: running is initial, failed is terminal,
and completed is terminal except that a throw in the completion
notification itself moves the record from completed to failed. -/
theorem executeWorkflow_statusHistory_cases :
    ∀ (planE : Except Unit (List (List Node))) (dispatch : Node → Bool)
      (σ : Nat → List Node → List Node) (ω : Nat → Bool),
      (executeWorkflow planE dispatch σ ω).statusHistory = [Status.running] ∨
        (executeWorkflow planE dispatch σ ω).statusHistory =
          [Status.running, Status.completed] ∨
        (executeWorkflow planE dispatch σ ω).statusHistory =
          [Status.running, Status.failed] ∨
        (executeWorkflow planE dispatch σ ω).statusHistory =
          [Status.running, Status.completed, Status.failed] := by
  intro planE dispatch σ ω
  unfold executeWorkflow
  cases h0 : ω 0 with
  | false => left; rfl
  | true =>
    simp only [if_true]
    cases planE with
    | error u => right; right; left; rfl
    | ok plan =>
      dsimp only
      cases hab : (runLevels dispatch σ ω 0 1 plan).2.1 with
      | true => right; right; left; rfl
      | false =>
        cases hc : ω (runLevels dispatch σ ω 0 1 plan).2.2 with
        | true => right; left; rfl
        | false => right; right; right; rfl

end Surveilens
